import Mathlib

/-!
Verification development for the `web_to_presentation` HTML-to-images
converter (`src/html-to-images.js`).  The JavaScript source is shallowly
embedded: pure computations (configuration merging, file-name
construction, deduplication/sorting of scan results) become Lean
functions, and the per-file browser-driving procedure
`convertHtmlToImages` becomes a function from an environment (which
records whether navigation and the individual element screenshots
succeed, and the document-order list of `.page` elements) to the ordered
trace of browser actions it performs together with its result.
-/

namespace HtmlToImages

/-! ## Configuration (`loadConfig`, lines 13–61 of html-to-images.js) -/

/-- The `viewport` record of the configuration. -/
structure Viewport where
  width : Int
  height : Int
  deviceScaleFactor : Int
  deriving DecidableEq, Repr

/-- The merged configuration object.  Only the fields the claims touch are
carried; `outputDir`, `scanPatterns` and `excludePatterns` come from the
defaults only, since the JS merge spreads `defaultConfig` and re-assigns
just `viewport`, `imageFormat` and `imageQuality`. -/
structure Config where
  outputDir : String
  scanPatterns : List String
  excludePatterns : List String
  viewport : Viewport
  imageFormat : String
  imageQuality : Int
  deriving DecidableEq, Repr

/-- A user-supplied `viewport` object: each key may be present or absent
(JS object spread only copies present keys). -/
structure UserViewport where
  width : Option Int
  height : Option Int
  deviceScaleFactor : Option Int
  deriving DecidableEq, Repr

/-- A user-supplied configuration object (the parse of
`html-to-images-config.json`).  Only the keys the merge reads. -/
structure UserConfig where
  viewport : Option UserViewport
  imageFormat : Option String
  imageQuality : Option Int
  deriving DecidableEq, Repr

/-- The empty user configuration `{}`. -/
def UserConfig.empty : UserConfig := ⟨none, none, none⟩

/-- State of the optional configuration file: absent, present but failing
to parse (`JSON.parse` throws), or parsed into a `UserConfig`. -/
inductive ConfigFile where
  | absent
  | malformed
  | parsed (c : UserConfig)

/-- Lines 15–25: `customConfig` starts as `{}` and keeps that value when
the file is absent or the read/parse throws (the catch only logs). -/
def readUserConfig : ConfigFile → UserConfig
  | .absent => UserConfig.empty
  | .malformed => UserConfig.empty
  | .parsed c => c

/-- JS `a || b` for a possibly-absent string value: an absent key is
`undefined` (falsy) and the empty string is falsy. -/
def jsOrString (u : Option String) (d : String) : String :=
  match u with
  | none => d
  | some s => if s = "" then d else s

/-- JS `a || b` for a possibly-absent numeric value: an absent key is
`undefined` (falsy) and `0` is falsy. -/
def jsOrInt (u : Option Int) (d : Int) : Int :=
  match u with
  | none => d
  | some n => if n = 0 then d else n

/-- `{ ...defaultConfig.viewport, ...customConfig.viewport }`: a key
present in the user viewport overrides the default whatever its value;
spreading an absent object contributes nothing. -/
def mergeViewport (d : Viewport) (u : Option UserViewport) : Viewport :=
  match u with
  | none => d
  | some uv =>
    { width := uv.width.getD d.width
      height := uv.height.getD d.height
      deviceScaleFactor := uv.deviceScaleFactor.getD d.deviceScaleFactor }

/-- Lines 28–52: the built-in `defaultConfig`.  The JS paths are built
with `path.join(__dirname, …)`; the directory strings are carried
verbatim relative to the script directory. -/
def defaultConfig : Config :=
  { outputDir := "../output/images"
    scanPatterns := ["../*.html", "../**/*.html"]
    excludePatterns :=
      ["**/node_modules/**", "**/output/**", "**/.git/**", "**/dist/**",
       "**/build/**", "**/frontend/**"]
    viewport := { width := 1122, height := 794, deviceScaleFactor := 3 }
    imageFormat := "png"
    imageQuality := 100 }

/-- Lines 13–61: read the optional config file and merge it over the
defaults (lines 55–60: spread of `defaultConfig`, viewport spread-merge,
`||`-fallback for `imageFormat` and `imageQuality`). -/
def loadConfig (f : ConfigFile) : Config :=
  let customConfig := readUserConfig f
  { defaultConfig with
    viewport := mergeViewport defaultConfig.viewport customConfig.viewport
    imageFormat := jsOrString customConfig.imageFormat defaultConfig.imageFormat
    imageQuality := jsOrInt customConfig.imageQuality defaultConfig.imageQuality }

/-! ## Path helpers (`path.basename`, `path.join`, `String.padStart`) -/

/-- Node `path.basename(p)` on a POSIX file path (no trailing
separator): the final path component, the text after the last `/`. -/
def lastComponent (p : String) : String :=
  String.mk ((p.data.reverse.takeWhile fun c => c ≠ '/').reverse)

/-- Node `path.basename(p, ext)`: the final component, with `ext`
removed when it is a proper suffix of it (Node keeps the name intact
when it equals the extension). -/
def basename (p ext : String) : String :=
  let name := lastComponent p
  if decide (ext.data.length < name.data.length)
      && ext.data.isSuffixOf name.data then
    String.mk (name.data.take (name.data.length - ext.data.length))
  else name

/-- JS `s.padStart(2, '0')`: prepend zeros up to length 2; strings of
length ≥ 2 are returned unchanged. -/
def padStart2 (s : String) : String :=
  if s.length ≥ 2 then s else String.mk (List.replicate (2 - s.length) '0') ++ s

/-- The page-index component `String(i + 1).padStart(2, '0')` of an
output file name, taking the 0-based loop counter `i` (line 163). -/
def pad2 (n : Nat) : String := padStart2 (toString n)

/-- Node `path.join(dir, name)` for a simple directory and file name:
the two joined by the path separator. -/
def pathJoin (dir name : String) : String := dir ++ "/" ++ name

/-- Lines 161–164: the output path of the screenshot taken in loop
iteration `i` (0-based) while converting the file with stem
`fileName`. -/
def outputPath (cfg : Config) (fileName : String) (i : Nat) : String :=
  pathJoin cfg.outputDir (fileName ++ "_page_" ++ pad2 (i + 1) ++ ".png")

/-! ## Renderer (`convertHtmlToImages`, lines 107–181)

The browser work is external; the embedding records the ordered trace of
Playwright calls the function awaits, and takes as input an environment
saying which of the fallible awaits throw: whether `page.goto` succeeds,
and, for each `.page` element (listed in document order, as
`locator('.page').all()` returns them), whether its
`element.screenshot` succeeds. -/

/-- One `.page` element as the render environment presents it: a
document-order identity and whether screenshotting it succeeds. -/
structure PageElement where
  id : Nat
  shotOk : Bool
  deriving DecidableEq, Repr

/-- The per-file render environment: whether navigation succeeds and the
document-order list of `.page` elements. -/
structure RenderEnv where
  gotoOk : Bool
  elements : List PageElement
  deriving DecidableEq, Repr

/-- A browser action awaited by `convertHtmlToImages`, in trace order. -/
inductive Event where
  | launch
  | newContext (width height deviceScaleFactor : Int)
  | newPage
  | goto (url : String) (waitUntil : String) (timeout : Nat)
  | waitForTimeout (ms : Nat)
  | scrollIntoView (el : Nat)
  | screenshot (el : Nat) (path : String)
  | closePage
  | closeContext
  | closeBrowser
  deriving DecidableEq, Repr

/-- Lines 152–175: the screenshot loop.  Each iteration scrolls the
element into view, waits 500 ms, and screenshots it to `outputPath`;
a throwing screenshot propagates out of the loop (second component
`false`), abandoning the remaining elements. -/
def shootPages (cfg : Config) (fileName : String) :
    List PageElement → Nat → List Event × Bool
  | [], _ => ([], true)
  | el :: rest, i =>
    if el.shotOk then
      let (tr, ok) := shootPages cfg fileName rest (i + 1)
      (Event.scrollIntoView el.id :: Event.waitForTimeout 500 ::
        Event.screenshot el.id (outputPath cfg fileName i) :: tr, ok)
    else
      ([Event.scrollIntoView el.id, Event.waitForTimeout 500], false)

/-- Lines 107–181: convert one HTML file.  Launch a browser, open a
context at the configured viewport and device scale, open a page,
navigate to the `file://` URL waiting for network idle with a 60 s
timeout, wait a further 3 s, screenshot each `.page` element, then close
page, context and browser.  There is no try/finally: an exception from
`goto` or from a screenshot propagates to the caller at once, so the
three closes run only on the all-success path.  Returns the trace and
either the element count or the propagated error. -/
def convertHtmlToImages (cfg : Config) (env : RenderEnv) (htmlFilePath : String) :
    List Event × Except Unit Nat :=
  let fileName := basename htmlFilePath ".html"
  let setup : List Event :=
    [Event.launch,
     Event.newContext cfg.viewport.width cfg.viewport.height
       cfg.viewport.deviceScaleFactor,
     Event.newPage,
     Event.goto ("file://" ++ htmlFilePath) "networkidle" 60000]
  if env.gotoOk then
    let (loopTr, ok) := shootPages cfg fileName env.elements 0
    if ok then
      (setup ++ Event.waitForTimeout 3000 :: loopTr ++
        [Event.closePage, Event.closeContext, Event.closeBrowser],
       Except.ok env.elements.length)
    else
      (setup ++ Event.waitForTimeout 3000 :: loopTr, Except.error ())
  else
    (setup, Except.error ())

/-- The paths of the screenshots actually taken in a trace, in order:
these are the image files the conversion wrote. -/
def screenshotPaths (tr : List Event) : List String :=
  tr.filterMap fun e =>
    match e with
    | Event.screenshot _ p => some p
    | _ => none

/-- The element identities screenshotted in a trace, in order. -/
def screenshotIds (tr : List Event) : List Nat :=
  tr.filterMap fun e =>
    match e with
    | Event.screenshot el _ => some el
    | _ => none

/-- The shape of the screenshot loop's trace: zero or more capture
blocks — scroll into view, 500 ms settle delay, screenshot — possibly
ending in a block whose screenshot threw (its settle delay ran, but no
image was written). -/
inductive CaptureBlocks : List Event → Prop
  | nil : CaptureBlocks []
  | failed (e : Nat) :
      CaptureBlocks [Event.scrollIntoView e, Event.waitForTimeout 500]
  | capture (e : Nat) (p : String) (rest : List Event) :
      CaptureBlocks rest →
      CaptureBlocks (Event.scrollIntoView e :: Event.waitForTimeout 500 ::
        Event.screenshot e p :: rest)

/-! ## File discovery (`scanHtmlFiles`, lines 69–88)

The `glob` library is an external collaborator.  Its behaviour is a
parameter: a `Matcher` says which pattern/path pairs match and which
patterns make `glob` throw, and `globModel` applies glob's documented
contract (`ignore` excludes, `nodir` restricts the tree to files — the
tree is given as its list of absolute file paths). -/

/-- The glob engine over a fixed directory tree: `isMatch pat p` tells
whether pattern `pat` matches path `p`, and `ok pat` whether matching
with `pat` completes without throwing. -/
structure Matcher where
  isMatch : String → String → Bool
  ok : String → Bool

/-- `glob(pattern, { ignore, absolute, nodir })` over the tree whose
absolute file paths are `files`: the files matching the pattern and no
ignore pattern, or an error when the pattern throws. -/
def globModel (m : Matcher) (files : List String) (excludes : List String)
    (pat : String) : Except Unit (List String) :=
  if m.ok pat then
    Except.ok (files.filter fun f =>
      m.isMatch pat f && excludes.all fun e => !m.isMatch e f)
  else Except.error ()

/-- Lines 72–83: accumulate the matches of each scan pattern into
`allFiles`; a throwing pattern is caught, logged, and contributes
nothing. -/
def scanLoop (m : Matcher) (files : List String) (excludes : List String)
    (patterns : List String) (acc : List String) : List String :=
  patterns.foldl
    (fun allFiles pat =>
      match globModel m files excludes pat with
      | Except.ok fs => allFiles ++ fs
      | Except.error _ => allFiles)
    acc

/-- `[...new Set(allFiles)]` (line 86): remove duplicates keeping the
first occurrence of each element, in insertion order. -/
def setDedup (l : List String) : List String :=
  l.foldl (fun acc x => if x ∈ acc then acc else acc ++ [x]) []

/-- Line 86: `.sort()` — JS default sort on strings is lexicographic
comparison; modelled by sorting with the string order (on a
duplicate-free list any correct sort produces the same value). -/
def sortStrings (l : List String) : List String :=
  l.insertionSort (· ≤ ·)

/-- Lines 69–88: scan every configured pattern, then deduplicate and
sort the union. -/
def scanHtmlFiles (m : Matcher) (files : List String) (cfg : Config) :
    List String :=
  sortStrings (setDedup (scanLoop m files cfg.excludePatterns cfg.scanPatterns []))

/-! ## The main loop (`main`, lines 209–227) -/

/-- The run-level tallies `totalPages`, `successCount`, `failCount`. -/
structure RunSummary where
  totalPages : Nat
  successCount : Nat
  failCount : Nat
  deriving DecidableEq, Repr

/-- Lines 213–222: one iteration of the per-file loop: on success add
the page count and bump `successCount`; on a caught error bump
`failCount` (the error is logged and the loop continues). -/
def mainStep (cfg : Config) (acc : RunSummary) (inp : String × RenderEnv) :
    RunSummary :=
  match (convertHtmlToImages cfg inp.2 inp.1).2 with
  | Except.ok n =>
    { acc with totalPages := acc.totalPages + n
               successCount := acc.successCount + 1 }
  | Except.error _ => { acc with failCount := acc.failCount + 1 }

/-- Lines 209–227: process the discovered files in order, starting from
zeroed tallies.  Each file is paired with its render environment. -/
def runMain (cfg : Config) (inputs : List (String × RenderEnv)) : RunSummary :=
  inputs.foldl (mainStep cfg) ⟨0, 0, 0⟩

/-! ## Theorems -/

/-- C3, counterexample: the user configuration `{"viewport":{"width":0}}`
is merged by plain object spread, so the merged viewport width is `0`,
not positive — the claim that every merged configuration has positive
viewport dimensions is false. -/
theorem C3_counterexample :
    ¬ (0 < (loadConfig (ConfigFile.parsed
        ⟨some ⟨some 0, none, none⟩, none, none⟩)).viewport.width ∧
       0 < (loadConfig (ConfigFile.parsed
        ⟨some ⟨some 0, none, none⟩, none, none⟩)).viewport.height ∧
       0 < (loadConfig (ConfigFile.parsed
        ⟨some ⟨some 0, none, none⟩, none, none⟩)).viewport.deviceScaleFactor) := by
  intro h
  have hw := h.1
  simp [loadConfig, readUserConfig, mergeViewport] at hw

/-- C3, amended: the merged viewport width, height and device scale
factor are positive provided every viewport field the user supplies is
positive (the built-in defaults 1122 × 794 @ 3 are positive); a
user-supplied zero or negative value is passed through unchecked. -/
theorem C3_amended (uc : UserConfig)
    (h : ∀ uv, uc.viewport = some uv →
      (∀ n, uv.width = some n → 0 < n) ∧
      (∀ n, uv.height = some n → 0 < n) ∧
      (∀ n, uv.deviceScaleFactor = some n → 0 < n)) :
    0 < (loadConfig (ConfigFile.parsed uc)).viewport.width ∧
    0 < (loadConfig (ConfigFile.parsed uc)).viewport.height ∧
    0 < (loadConfig (ConfigFile.parsed uc)).viewport.deviceScaleFactor := by
  obtain ⟨vp, fmt, q⟩ := uc
  cases vp with
  | none =>
    refine ⟨?_, ?_, ?_⟩ <;> simp [loadConfig, readUserConfig, mergeViewport, defaultConfig]
  | some uv =>
    obtain ⟨hw, hh, hs⟩ := h uv rfl
    obtain ⟨w, ht, s⟩ := uv
    refine ⟨?_, ?_, ?_⟩ <;>
      simp only [loadConfig, readUserConfig, mergeViewport, defaultConfig]
    · cases w with
      | none => simp
      | some n => simpa using hw n rfl
    · cases ht with
      | none => simp
      | some n => simpa using hh n rfl
    · cases s with
      | none => simp
      | some n => simpa using hs n rfl

/-- C3, witness: the amended statement at the concrete user
configuration `{"viewport":{"width":2,"deviceScaleFactor":1}}`. -/
theorem C3_amended_witness :
    0 < (loadConfig (ConfigFile.parsed
      ⟨some ⟨some 2, none, some 1⟩, none, none⟩)).viewport.width ∧
    0 < (loadConfig (ConfigFile.parsed
      ⟨some ⟨some 2, none, some 1⟩, none, none⟩)).viewport.height ∧
    0 < (loadConfig (ConfigFile.parsed
      ⟨some ⟨some 2, none, some 1⟩, none, none⟩)).viewport.deviceScaleFactor :=
  C3_amended ⟨some ⟨some 2, none, some 1⟩, none, none⟩
    (by
      intro uv huv
      cases huv
      refine ⟨fun n hn => ?_, fun n hn => ?_, fun n hn => ?_⟩
      · cases hn
        decide
      · exact absurd hn (by simp)
      · cases hn
        decide)

/-- C6, counterexample: the user configuration `{"imageQuality":0}` sets
a recognized key, but the merge uses JS `||`, for which `0` is falsy, so
the merged image quality is the default `100`, not the user's `0` — a
set recognized key does not always override the default. -/
theorem C6_counterexample :
    (loadConfig (ConfigFile.parsed ⟨none, none, some 0⟩)).imageQuality = 100 ∧
    (100 : Int) ≠ 0 := by
  constructor
  · rfl
  · decide

/-- C6, amended: set viewport keys always override the defaults;
`imageFormat` and `imageQuality` override only when set to a JS-truthy
value (a non-empty string, a non-zero number) and otherwise fall back to
the defaults; unset keys fall back; an absent or malformed (unparseable)
configuration file yields the full built-in defaults without aborting
(`loadConfig` returns normally). -/
theorem C6_amended (uv : UserViewport) (fmt : String) (q : Int)
    (hfmt : fmt ≠ "") (hq : q ≠ 0) :
    (loadConfig (ConfigFile.parsed ⟨some uv, some fmt, some q⟩)).viewport.width
        = uv.width.getD defaultConfig.viewport.width ∧
    (loadConfig (ConfigFile.parsed ⟨some uv, some fmt, some q⟩)).viewport.height
        = uv.height.getD defaultConfig.viewport.height ∧
    (loadConfig (ConfigFile.parsed ⟨some uv, some fmt, some q⟩)).viewport.deviceScaleFactor
        = uv.deviceScaleFactor.getD defaultConfig.viewport.deviceScaleFactor ∧
    (loadConfig (ConfigFile.parsed ⟨some uv, some fmt, some q⟩)).imageFormat = fmt ∧
    (loadConfig (ConfigFile.parsed ⟨some uv, some fmt, some q⟩)).imageQuality = q ∧
    (loadConfig (ConfigFile.parsed ⟨some uv, none, none⟩)).imageFormat
        = defaultConfig.imageFormat ∧
    (loadConfig (ConfigFile.parsed ⟨some uv, none, none⟩)).imageQuality
        = defaultConfig.imageQuality ∧
    loadConfig (ConfigFile.parsed UserConfig.empty) = defaultConfig ∧
    loadConfig ConfigFile.malformed = defaultConfig ∧
    loadConfig ConfigFile.absent = defaultConfig := by
  refine ⟨?_, ?_, ?_, ?_, ?_, ?_, ?_, ?_, ?_, ?_⟩ <;>
    simp [loadConfig, readUserConfig, mergeViewport, jsOrString, jsOrInt,
      UserConfig.empty, hfmt, hq]

/-- C6, witness: the amended statement at the concrete user
configuration `{"viewport":{"width":5,"deviceScaleFactor":2},
"imageFormat":"jpeg","imageQuality":80}`. -/
theorem C6_amended_witness :
    (loadConfig (ConfigFile.parsed
      ⟨some ⟨some 5, none, some 2⟩, some "jpeg", some 80⟩)).viewport.width
        = (Option.some (5 : Int)).getD defaultConfig.viewport.width ∧
    (loadConfig (ConfigFile.parsed
      ⟨some ⟨some 5, none, some 2⟩, some "jpeg", some 80⟩)).viewport.height
        = (Option.none).getD defaultConfig.viewport.height ∧
    (loadConfig (ConfigFile.parsed
      ⟨some ⟨some 5, none, some 2⟩, some "jpeg", some 80⟩)).viewport.deviceScaleFactor
        = (Option.some (2 : Int)).getD defaultConfig.viewport.deviceScaleFactor ∧
    (loadConfig (ConfigFile.parsed
      ⟨some ⟨some 5, none, some 2⟩, some "jpeg", some 80⟩)).imageFormat = "jpeg" ∧
    (loadConfig (ConfigFile.parsed
      ⟨some ⟨some 5, none, some 2⟩, some "jpeg", some 80⟩)).imageQuality = 80 ∧
    (loadConfig (ConfigFile.parsed
      ⟨some ⟨some 5, none, some 2⟩, none, none⟩)).imageFormat
        = defaultConfig.imageFormat ∧
    (loadConfig (ConfigFile.parsed
      ⟨some ⟨some 5, none, some 2⟩, none, none⟩)).imageQuality
        = defaultConfig.imageQuality ∧
    loadConfig (ConfigFile.parsed UserConfig.empty) = defaultConfig ∧
    loadConfig ConfigFile.malformed = defaultConfig ∧
    loadConfig ConfigFile.absent = defaultConfig :=
  C6_amended ⟨some 5, none, some 2⟩ "jpeg" 80 (by decide) (by decide)

/-- Folding the per-file loop from an arbitrary starting tally adds the
tallies of the run started from zero. -/
theorem foldl_mainStep_shift (cfg : Config) (inputs : List (String × RenderEnv)) :
    ∀ acc : RunSummary, inputs.foldl (mainStep cfg) acc =
      { totalPages := acc.totalPages + (runMain cfg inputs).totalPages
        successCount := acc.successCount + (runMain cfg inputs).successCount
        failCount := acc.failCount + (runMain cfg inputs).failCount } := by
  induction inputs with
  | nil =>
    intro acc
    cases acc
    simp [runMain]
  | cons x xs ih =>
    intro acc
    simp only [runMain, List.foldl_cons] at *
    rw [ih (mainStep cfg acc x), ih (mainStep cfg ⟨0, 0, 0⟩ x)]
    cases hc : (convertHtmlToImages cfg x.2 x.1).2 <;>
      simp [mainStep, hc, RunSummary.mk.injEq] <;> omega

/-- C1: the conversion has no try/finally, so on the two failure exits —
`page.goto` throwing (e.g. the 60 s navigation timeout) and an
`element.screenshot` throwing — none of `page.close`, `context.close`,
`browser.close` is ever awaited: the browser session of the failed file
is still open when the caller's catch hands control to the next file.
Evaluated at a file whose navigation fails and at a file whose first
screenshot fails. -/
theorem C1_teardown_skipped_on_failure :
    (Event.closePage ∉ (convertHtmlToImages defaultConfig ⟨false, []⟩
        "/proj/a.html").1 ∧
     Event.closeContext ∉ (convertHtmlToImages defaultConfig ⟨false, []⟩
        "/proj/a.html").1 ∧
     Event.closeBrowser ∉ (convertHtmlToImages defaultConfig ⟨false, []⟩
        "/proj/a.html").1 ∧
     (convertHtmlToImages defaultConfig ⟨false, []⟩ "/proj/a.html").2
        = Except.error ()) ∧
    (Event.closePage ∉ (convertHtmlToImages defaultConfig ⟨true, [⟨1, false⟩]⟩
        "/proj/a.html").1 ∧
     Event.closeContext ∉ (convertHtmlToImages defaultConfig ⟨true, [⟨1, false⟩]⟩
        "/proj/a.html").1 ∧
     Event.closeBrowser ∉ (convertHtmlToImages defaultConfig ⟨true, [⟨1, false⟩]⟩
        "/proj/a.html").1 ∧
     (convertHtmlToImages defaultConfig ⟨true, [⟨1, false⟩]⟩ "/proj/a.html").2
        = Except.error ()) := by
  exact ⟨⟨by decide, by decide, by decide, rfl⟩, by decide, by decide, by decide, rfl⟩

/-- C2, counterexample: a file whose page-marker query finds zero
elements produces zero images and is tallied as a success
(`successCount = 1`), not in the failure tally (`failCount = 0`) — the
claim that such a file is counted in the run's failure tally is false. -/
theorem C2_counterexample :
    (runMain defaultConfig [("/proj/report.html", ⟨true, []⟩)]).failCount = 0 ∧
    (runMain defaultConfig [("/proj/report.html", ⟨true, []⟩)]).successCount = 1 ∧
    screenshotPaths (convertHtmlToImages defaultConfig ⟨true, []⟩
      "/proj/report.html").1 = [] := by
  decide

/-- C2, amended: a file with zero page-marker elements produces zero
images, returns page count 0, is counted in the run's success tally
(not the failure tally), and the run continues: the remaining files'
tallies are accumulated unchanged on top of it. -/
theorem C2_amended (cfg : Config) (f : String)
    (rest : List (String × RenderEnv)) :
    (convertHtmlToImages cfg ⟨true, []⟩ f).2 = Except.ok 0 ∧
    screenshotPaths (convertHtmlToImages cfg ⟨true, []⟩ f).1 = [] ∧
    runMain cfg ((f, ⟨true, []⟩) :: rest) =
      { totalPages := (runMain cfg rest).totalPages
        successCount := (runMain cfg rest).successCount + 1
        failCount := (runMain cfg rest).failCount } := by
  refine ⟨?_, ?_, ?_⟩
  · simp [convertHtmlToImages, shootPages]
  · simp [convertHtmlToImages, shootPages, screenshotPaths]
  · show List.foldl (mainStep cfg) ⟨0, 0, 0⟩ ((f, ⟨true, []⟩) :: rest) = _
    rw [List.foldl_cons, foldl_mainStep_shift]
    have hstep : mainStep cfg ⟨0, 0, 0⟩ (f, ⟨true, []⟩) = ⟨0, 1, 0⟩ := by
      simp [mainStep, convertHtmlToImages, shootPages]
    rw [hstep]
    simp [RunSummary.mk.injEq]
    omega

/-- C2, witness: the amended statement for a single zero-marker file and
an empty remainder. -/
theorem C2_amended_witness :
    (convertHtmlToImages defaultConfig ⟨true, []⟩ "/proj/empty.html").2
        = Except.ok 0 ∧
    screenshotPaths (convertHtmlToImages defaultConfig ⟨true, []⟩
        "/proj/empty.html").1 = [] ∧
    runMain defaultConfig [("/proj/empty.html", ⟨true, []⟩)] =
      { totalPages := (runMain defaultConfig []).totalPages
        successCount := (runMain defaultConfig []).successCount + 1
        failCount := (runMain defaultConfig []).failCount } :=
  C2_amended defaultConfig "/proj/empty.html" []

/-- C7: the run-level summary's success and failure tallies always sum
to the number of discovered files, and a file whose conversion throws is
caught and bumps only the failure tally — the remaining files are still
processed and their tallies accumulate unchanged. -/
theorem C7_run_tallies (cfg : Config) (inputs : List (String × RenderEnv)) :
    (runMain cfg inputs).successCount + (runMain cfg inputs).failCount
        = inputs.length ∧
    (∀ x rest, inputs = x :: rest →
      (convertHtmlToImages cfg x.2 x.1).2 = Except.error () →
      runMain cfg inputs =
        { totalPages := (runMain cfg rest).totalPages
          successCount := (runMain cfg rest).successCount
          failCount := (runMain cfg rest).failCount + 1 }) := by
  constructor
  · induction inputs with
    | nil => simp [runMain]
    | cons x xs ih =>
      have hcons : runMain cfg (x :: xs)
          = List.foldl (mainStep cfg) (mainStep cfg ⟨0, 0, 0⟩ x) xs := by
        simp [runMain]
      rw [hcons, foldl_mainStep_shift]
      cases hc : (convertHtmlToImages cfg x.2 x.1).2 <;>
        simp [mainStep, hc, List.length_cons] <;> omega
  · intro x rest hinp hx
    subst hinp
    show List.foldl (mainStep cfg) ⟨0, 0, 0⟩ (x :: rest) = _
    rw [List.foldl_cons, foldl_mainStep_shift]
    have hstep : mainStep cfg ⟨0, 0, 0⟩ x = ⟨0, 0, 1⟩ := by
      simp [mainStep, hx]
    rw [hstep]
    simp [RunSummary.mk.injEq]
    omega

/-- C7, witness: the tallies statement at a concrete two-file run whose
first file fails to navigate and whose second succeeds with one page. -/
theorem C7_run_tallies_witness :
    (runMain defaultConfig [("/proj/bad.html", ⟨false, []⟩),
        ("/proj/good.html", ⟨true, [⟨0, true⟩]⟩)]).successCount +
      (runMain defaultConfig [("/proj/bad.html", ⟨false, []⟩),
        ("/proj/good.html", ⟨true, [⟨0, true⟩]⟩)]).failCount
        = [("/proj/bad.html", (⟨false, []⟩ : RenderEnv)),
           ("/proj/good.html", ⟨true, [⟨0, true⟩]⟩)].length ∧
    (∀ x rest,
      [("/proj/bad.html", (⟨false, []⟩ : RenderEnv)),
       ("/proj/good.html", ⟨true, [⟨0, true⟩]⟩)] = x :: rest →
      (convertHtmlToImages defaultConfig x.2 x.1).2 = Except.error () →
      runMain defaultConfig
          [("/proj/bad.html", ⟨false, []⟩),
           ("/proj/good.html", ⟨true, [⟨0, true⟩]⟩)] =
        { totalPages := (runMain defaultConfig rest).totalPages
          successCount := (runMain defaultConfig rest).successCount
          failCount := (runMain defaultConfig rest).failCount + 1 }) :=
  C7_run_tallies defaultConfig
    [("/proj/bad.html", ⟨false, []⟩), ("/proj/good.html", ⟨true, [⟨0, true⟩]⟩)]

/-- When every screenshot succeeds, the screenshot loop completes, takes
one screenshot per element in list (document) order, and writes the
iteration-`i + k`-indexed output path for the `k`-th element. -/
theorem shootPages_all_ok (cfg : Config) (fn : String) :
    ∀ (els : List PageElement) (i : Nat),
      (∀ el ∈ els, el.shotOk = true) →
      (shootPages cfg fn els i).2 = true ∧
      screenshotPaths (shootPages cfg fn els i).1 =
        (List.range els.length).map (fun k => outputPath cfg fn (i + k)) ∧
      screenshotIds (shootPages cfg fn els i).1 = els.map PageElement.id := by
  intro els
  induction els with
  | nil => intro i _; simp [shootPages, screenshotPaths, screenshotIds]
  | cons el rest ih =>
    intro i h
    have hel : el.shotOk = true := h el (List.mem_cons_self el rest)
    have hrest := ih (i + 1) (fun e he => h e (List.mem_cons_of_mem el he))
    obtain ⟨h2, hp, hi⟩ := hrest
    rcases hP : shootPages cfg fn rest (i + 1) with ⟨tr, ok⟩
    rw [hP] at h2 hp hi
    simp only at h2 hp hi
    subst h2
    refine ⟨?_, ?_, ?_⟩
    · simp [shootPages, hel, hP]
    · simp only [screenshotPaths] at hp
      simp only [shootPages, hel, if_pos, hP, screenshotPaths,
        List.filterMap_cons, List.length_cons, List.range_succ_eq_map,
        List.map_cons, List.map_map]
      rw [hp]
      refine List.cons_eq_cons.mpr ⟨?_, ?_⟩
      · rw [Nat.add_zero]
      · apply List.map_congr_left
        intro k _
        simp only [Function.comp_apply, Nat.succ_eq_add_one]
        congr 1
        omega
    · simp only [screenshotIds] at hi
      simp only [shootPages, hel, if_pos, hP, screenshotIds,
        List.filterMap_cons, List.map_cons]
      rw [hi]

/-- C4: for a file whose navigation succeeds and whose every element
screenshot succeeds, the conversion returns the element count `N` and
takes exactly `N` screenshots, the `k`-th (0-based) written to
`{outputDir}/{stem}_page_{pad(k+1)}.png` — indices 1-based, zero-padded
to two digits, strictly increasing from 1 to `N` with no gaps — and the
screenshots cover the page-marker elements exactly in document order. -/
theorem C4_image_naming (cfg : Config) (env : RenderEnv) (f : String)
    (hg : env.gotoOk = true)
    (hok : ∀ el ∈ env.elements, el.shotOk = true) :
    (convertHtmlToImages cfg env f).2 = Except.ok env.elements.length ∧
    screenshotPaths (convertHtmlToImages cfg env f).1 =
      (List.range env.elements.length).map (fun k =>
        pathJoin cfg.outputDir
          (basename f ".html" ++ "_page_" ++ pad2 (k + 1) ++ ".png")) ∧
    screenshotIds (convertHtmlToImages cfg env f).1 =
      env.elements.map PageElement.id := by
  obtain ⟨h2, hp, hi⟩ := shootPages_all_ok cfg (basename f ".html") env.elements 0 hok
  rcases hP : shootPages cfg (basename f ".html") env.elements 0 with ⟨tr, ok⟩
  rw [hP] at h2 hp hi
  simp only at h2 hp hi
  subst h2
  refine ⟨?_, ?_, ?_⟩
  · simp [convertHtmlToImages, hg, hP]
  · simp only [convertHtmlToImages, hg, if_pos, hP]
    simp only [screenshotPaths, List.filterMap_append, List.filterMap_cons]
    rw [show (tr.filterMap fun e => match e with
          | Event.screenshot _ p => some p
          | _ => none) = _ from hp]
    simp [outputPath]
  · simp only [convertHtmlToImages, hg, if_pos, hP]
    simp only [screenshotIds, List.filterMap_append, List.filterMap_cons]
    rw [show (tr.filterMap fun e => match e with
          | Event.screenshot el _ => some el
          | _ => none) = _ from hi]
    simp

/-- C4, witness: the naming statement at a concrete two-element file
`/proj/demo.html`, whose images are `demo_page_01.png` and
`demo_page_02.png`. -/
theorem C4_image_naming_witness :
    (convertHtmlToImages defaultConfig ⟨true, [⟨5, true⟩, ⟨7, true⟩]⟩
        "/proj/demo.html").2 = Except.ok
          ([⟨5, true⟩, ⟨7, true⟩] : List PageElement).length ∧
    screenshotPaths (convertHtmlToImages defaultConfig
        ⟨true, [⟨5, true⟩, ⟨7, true⟩]⟩ "/proj/demo.html").1 =
      (List.range ([⟨5, true⟩, ⟨7, true⟩] : List PageElement).length).map
        (fun k => pathJoin defaultConfig.outputDir
          (basename "/proj/demo.html" ".html" ++ "_page_" ++ pad2 (k + 1)
            ++ ".png")) ∧
    screenshotIds (convertHtmlToImages defaultConfig
        ⟨true, [⟨5, true⟩, ⟨7, true⟩]⟩ "/proj/demo.html").1 =
      ([⟨5, true⟩, ⟨7, true⟩] : List PageElement).map PageElement.id :=
  C4_image_naming defaultConfig ⟨true, [⟨5, true⟩, ⟨7, true⟩]⟩
    "/proj/demo.html" rfl (by decide)

/-- The screenshot loop's trace always consists of capture blocks:
scroll into view, a 500 ms settle delay, then the screenshot. -/
theorem captureBlocks_shootPages (cfg : Config) (fn : String) :
    ∀ (els : List PageElement) (i : Nat),
      CaptureBlocks (shootPages cfg fn els i).1 := by
  intro els
  induction els with
  | nil => intro i; exact CaptureBlocks.nil
  | cons el rest ih =>
    intro i
    by_cases hel : el.shotOk = true
    · have := ih (i + 1)
      rcases hP : shootPages cfg fn rest (i + 1) with ⟨tr, ok⟩
      rw [hP] at this
      simp only [shootPages, hel, if_pos, hP]
      exact CaptureBlocks.capture el.id (outputPath cfg fn i) tr this
    · simp only [Bool.not_eq_true] at hel
      simp only [shootPages, hel]
      exact CaptureBlocks.failed el.id

/-- C10: for every configuration, environment and file, the conversion
navigates with `waitUntil: networkidle` and the fixed 60 000 ms timeout;
whenever navigation succeeds it is followed by an unconditional fixed
3 000 ms settle delay, and the loop trace is capture blocks, each
screenshot preceded by an unconditional fixed 500 ms settle delay — the
delays are the same constants whatever the input. -/
theorem C10_fixed_waits (cfg : Config) (env : RenderEnv) (f : String) :
    ∃ body, (convertHtmlToImages cfg env f).1 =
      Event.launch ::
      Event.newContext cfg.viewport.width cfg.viewport.height
        cfg.viewport.deviceScaleFactor ::
      Event.newPage ::
      Event.goto ("file://" ++ f) "networkidle" 60000 :: body ∧
      (env.gotoOk = false → body = []) ∧
      (env.gotoOk = true → ∃ loopTr tail,
        body = Event.waitForTimeout 3000 :: (loopTr ++ tail) ∧
        CaptureBlocks loopTr ∧
        (tail = [Event.closePage, Event.closeContext, Event.closeBrowser] ∨
          tail = [])) := by
  have hcb := captureBlocks_shootPages cfg (basename f ".html") env.elements 0
  rcases hP : shootPages cfg (basename f ".html") env.elements 0 with ⟨tr, ok⟩
  rw [hP] at hcb
  cases hg : env.gotoOk with
  | false =>
    refine ⟨[], ?_, ?_, ?_⟩
    · simp [convertHtmlToImages, hg]
    · intro; rfl
    · intro h; exact absurd h (by simp)
  | true =>
    cases ok with
    | true =>
      refine ⟨Event.waitForTimeout 3000 :: (tr ++
        [Event.closePage, Event.closeContext, Event.closeBrowser]), ?_, ?_, ?_⟩
      · simp [convertHtmlToImages, hg, hP]
      · intro h; exact absurd h (by simp)
      · intro
        exact ⟨tr, [Event.closePage, Event.closeContext, Event.closeBrowser],
          rfl, hcb, Or.inl rfl⟩
    | false =>
      refine ⟨Event.waitForTimeout 3000 :: (tr ++ []), ?_, ?_, ?_⟩
      · simp [convertHtmlToImages, hg, hP]
      · intro h; exact absurd h (by simp)
      · intro
        exact ⟨tr, [], rfl, hcb, Or.inr rfl⟩

/-- C10, witness: the fixed-waits statement at a concrete one-element
file. -/
theorem C10_fixed_waits_witness :
    ∃ body, (convertHtmlToImages defaultConfig ⟨true, [⟨0, true⟩]⟩
        "/proj/a.html").1 =
      Event.launch ::
      Event.newContext defaultConfig.viewport.width
        defaultConfig.viewport.height
        defaultConfig.viewport.deviceScaleFactor ::
      Event.newPage ::
      Event.goto ("file://" ++ "/proj/a.html") "networkidle" 60000 :: body ∧
      ((⟨true, [⟨0, true⟩]⟩ : RenderEnv).gotoOk = false → body = []) ∧
      ((⟨true, [⟨0, true⟩]⟩ : RenderEnv).gotoOk = true → ∃ loopTr tail,
        body = Event.waitForTimeout 3000 :: (loopTr ++ tail) ∧
        CaptureBlocks loopTr ∧
        (tail = [Event.closePage, Event.closeContext, Event.closeBrowser] ∨
          tail = [])) :=
  C10_fixed_waits defaultConfig ⟨true, [⟨0, true⟩]⟩ "/proj/a.html"

/-- Membership in the scan loop's accumulated list: an element is either
carried over from the accumulator or produced by some non-throwing
pattern it matches, matches no exclude pattern, and lies in the tree. -/
theorem mem_scanLoop (m : Matcher) (files : List String) (ex : List String) :
    ∀ (patterns : List String) (acc : List String) (x : String),
      x ∈ scanLoop m files ex patterns acc →
      x ∈ acc ∨ ((∃ p ∈ patterns, m.ok p = true ∧ m.isMatch p x = true) ∧
        (∀ e ∈ ex, m.isMatch e x = false) ∧ x ∈ files) := by
  intro patterns
  induction patterns with
  | nil => intro acc x hx; exact Or.inl hx
  | cons p ps ih =>
    intro acc x hx
    simp only [scanLoop, List.foldl_cons] at hx
    by_cases hp : m.ok p = true
    · have hx' := ih _ x (by simpa [scanLoop, globModel, hp] using hx)
      rcases hx' with hacc | hrest
      · rw [List.mem_append] at hacc
        rcases hacc with h | h
        · exact Or.inl h
        · simp only [List.mem_filter, Bool.and_eq_true, List.all_eq_true,
            Bool.not_eq_true'] at h
          exact Or.inr ⟨⟨p, List.mem_cons_self p ps, hp, h.2.1⟩, h.2.2, h.1⟩
      · obtain ⟨⟨q, hq, hq2⟩, hex, hf⟩ := hrest
        exact Or.inr ⟨⟨q, List.mem_cons_of_mem p hq, hq2⟩, hex, hf⟩
    · have hp' : m.ok p = false := by
        simpa using hp
      have hx' := ih _ x (by simpa [scanLoop, globModel, hp'] using hx)
      rcases hx' with hacc | hrest
      · exact Or.inl hacc
      · obtain ⟨⟨q, hq, hq2⟩, hex, hf⟩ := hrest
        exact Or.inr ⟨⟨q, List.mem_cons_of_mem p hq, hq2⟩, hex, hf⟩

/-- The `Set`-based deduplication keeps no duplicates and exactly the
members of its input. -/
theorem setDedup_nodup_mem (l : List String) :
    (setDedup l).Nodup ∧ ∀ x, x ∈ setDedup l ↔ x ∈ l := by
  have main : ∀ (l' : List String) (acc : List String), acc.Nodup →
      (l'.foldl (fun a x => if x ∈ a then a else a ++ [x]) acc).Nodup ∧
      ∀ x, x ∈ l'.foldl (fun a x => if x ∈ a then a else a ++ [x]) acc ↔
        x ∈ acc ∨ x ∈ l' := by
    intro l'
    induction l' with
    | nil => intro acc hacc; simpa using hacc
    | cons a as ih =>
      intro acc hacc
      simp only [List.foldl_cons]
      by_cases ha : a ∈ acc
      · rw [if_pos ha]
        obtain ⟨h1, h2⟩ := ih acc hacc
        refine ⟨h1, fun x => ?_⟩
        rw [h2 x]
        constructor
        · rintro (h | h)
          · exact Or.inl h
          · exact Or.inr (List.mem_cons_of_mem a h)
        · rintro (h | h)
          · exact Or.inl h
          · rcases List.mem_cons.mp h with rfl | h
            · exact Or.inl ha
            · exact Or.inr h
      · rw [if_neg ha]
        have hacc' : (acc ++ [a]).Nodup := by
          simp [List.nodup_append, hacc, List.disjoint_singleton, ha]
        obtain ⟨h1, h2⟩ := ih (acc ++ [a]) hacc'
        refine ⟨h1, fun x => ?_⟩
        rw [h2 x]
        simp only [List.mem_append, List.mem_singleton, List.mem_cons]
        tauto
  obtain ⟨h1, h2⟩ := main l [] List.nodup_nil
  exact ⟨h1, fun x => by simpa using h2 x⟩

/-- Sorting with the string order keeps exactly the members of its
input, preserves duplicate-freedom, and sorts. -/
theorem sortStrings_props (l : List String) :
    List.Sorted (· ≤ ·) (sortStrings l) ∧
    (l.Nodup → (sortStrings l).Nodup) ∧
    ∀ x, x ∈ sortStrings l ↔ x ∈ l := by
  refine ⟨List.sorted_insertionSort _ l, ?_, ?_⟩
  · intro h
    exact (List.perm_insertionSort _ l).nodup_iff.mpr h
  · intro x
    exact (List.perm_insertionSort _ l).mem_iff

/-- C5: the discoverer's output contains no duplicates, is sorted
ascending in the string order, every element of it lies in the scanned
tree, matches some (non-throwing) scan pattern and no exclude pattern,
and discovery is deterministic — rerunning it over the unchanged tree
yields the identical ordered list. -/
theorem C5_discovery (m : Matcher) (files : List String) (cfg : Config) :
    (scanHtmlFiles m files cfg).Nodup ∧
    List.Sorted (· ≤ ·) (scanHtmlFiles m files cfg) ∧
    (∀ x ∈ scanHtmlFiles m files cfg,
      (∃ p ∈ cfg.scanPatterns, m.ok p = true ∧ m.isMatch p x = true) ∧
      (∀ e ∈ cfg.excludePatterns, m.isMatch e x = false) ∧ x ∈ files) ∧
    scanHtmlFiles m files cfg = scanHtmlFiles m files cfg := by
  obtain ⟨hd1, hd2⟩ :=
    setDedup_nodup_mem (scanLoop m files cfg.excludePatterns cfg.scanPatterns [])
  obtain ⟨hs1, hs2, hs3⟩ :=
    sortStrings_props (setDedup (scanLoop m files cfg.excludePatterns
      cfg.scanPatterns []))
  refine ⟨hs2 hd1, hs1, ?_, rfl⟩
  intro x hx
  have hx2 : x ∈ scanLoop m files cfg.excludePatterns cfg.scanPatterns [] :=
    (hd2 x).mp ((hs3 x).mp hx)
  rcases mem_scanLoop m files cfg.excludePatterns cfg.scanPatterns [] x hx2 with
    h | h
  · exact absurd h (List.not_mem_nil x)
  · exact h

/-- C5, witness: the discovery statement at a concrete matcher (pattern
matches a path when it is a suffix of it) over a concrete
three-file tree. -/
theorem C5_discovery_witness :
    (scanHtmlFiles ⟨fun pat p => p.endsWith pat, fun _ => true⟩
      ["/proj/b.html", "/proj/a.html", "/proj/a.html"] defaultConfig).Nodup ∧
    List.Sorted (· ≤ ·) (scanHtmlFiles ⟨fun pat p => p.endsWith pat,
      fun _ => true⟩ ["/proj/b.html", "/proj/a.html", "/proj/a.html"]
      defaultConfig) ∧
    (∀ x ∈ scanHtmlFiles ⟨fun pat p => p.endsWith pat, fun _ => true⟩
        ["/proj/b.html", "/proj/a.html", "/proj/a.html"] defaultConfig,
      (∃ p ∈ defaultConfig.scanPatterns,
        (⟨fun pat p => p.endsWith pat, fun _ => true⟩ : Matcher).ok p = true ∧
        (⟨fun pat p => p.endsWith pat, fun _ => true⟩ : Matcher).isMatch p x
          = true) ∧
      (∀ e ∈ defaultConfig.excludePatterns,
        (⟨fun pat p => p.endsWith pat, fun _ => true⟩ : Matcher).isMatch e x
          = false) ∧
      x ∈ ["/proj/b.html", "/proj/a.html", "/proj/a.html"]) ∧
    scanHtmlFiles ⟨fun pat p => p.endsWith pat, fun _ => true⟩
        ["/proj/b.html", "/proj/a.html", "/proj/a.html"] defaultConfig =
      scanHtmlFiles ⟨fun pat p => p.endsWith pat, fun _ => true⟩
        ["/proj/b.html", "/proj/a.html", "/proj/a.html"] defaultConfig :=
  C5_discovery ⟨fun pat p => p.endsWith pat, fun _ => true⟩
    ["/proj/b.html", "/proj/a.html", "/proj/a.html"] defaultConfig

/-- C8: a pattern that throws during matching is caught per-pattern and
contributes nothing, while scanning continues with the remaining
patterns — the discoverer's output over any pattern list equals its
output over the non-throwing patterns alone (the partial results). -/
theorem C8_pattern_error_partial (m : Matcher) (files : List String)
    (cfg : Config) :
    scanHtmlFiles m files cfg =
      scanHtmlFiles m files
        { cfg with scanPatterns := cfg.scanPatterns.filter fun p => m.ok p } := by
  have key : ∀ (patterns : List String) (acc : List String),
      scanLoop m files cfg.excludePatterns patterns acc =
      scanLoop m files cfg.excludePatterns (patterns.filter fun p => m.ok p)
        acc := by
    intro patterns
    induction patterns with
    | nil => intro acc; rfl
    | cons p ps ih =>
      intro acc
      by_cases hp : m.ok p = true
      · simp only [scanLoop, List.foldl_cons, List.filter_cons, hp, if_pos,
          globModel] at *
        exact ih _
      · have hp' : m.ok p = false := by simpa using hp
        simp only [scanLoop, List.foldl_cons, List.filter_cons, hp',
          Bool.false_eq_true, if_false, globModel] at *
        exact ih _
  simp only [scanHtmlFiles]
  rw [key]

/-- C8, witness: the partial-results statement at a concrete matcher for
which the first default scan pattern throws and the second does not. -/
theorem C8_pattern_error_partial_witness :
    scanHtmlFiles ⟨fun _ _ => true, fun p => p = "../**/*.html"⟩
        ["/proj/a.html"] defaultConfig =
      scanHtmlFiles ⟨fun _ _ => true, fun p => p = "../**/*.html"⟩
        ["/proj/a.html"]
        { defaultConfig with scanPatterns :=
            defaultConfig.scanPatterns.filter fun p =>
              (⟨fun _ _ => true, fun p => p = "../**/*.html"⟩ : Matcher).ok p } :=
  C8_pattern_error_partial ⟨fun _ _ => true, fun p => p = "../**/*.html"⟩
    ["/proj/a.html"] defaultConfig

/-- The images a conversion writes depend on the input path only through
its base name: two input files with the same stem yield the same
screenshot paths under the same environment. -/
theorem screenshotPaths_basename (cfg : Config) (env : RenderEnv)
    (f g : String) (h : basename f ".html" = basename g ".html") :
    screenshotPaths (convertHtmlToImages cfg env f).1 =
      screenshotPaths (convertHtmlToImages cfg env g).1 := by
  rcases hP : shootPages cfg (basename f ".html") env.elements 0 with ⟨tr, ok⟩
  have hPg : shootPages cfg (basename g ".html") env.elements 0 = (tr, ok) := by
    rw [← h]; exact hP
  cases hg : env.gotoOk with
  | false => simp [convertHtmlToImages, hg, screenshotPaths]
  | true =>
    cases ok with
    | true =>
      simp [convertHtmlToImages, hg, hP, hPg, screenshotPaths,
        List.filterMap_append]
    | false =>
      simp [convertHtmlToImages, hg, hP, hPg, screenshotPaths,
        List.filterMap_append]

/-- C9: the output image path is built from `path.basename(file,
'.html')` and the page index only, never from the directory: the
distinct discovered files `/proj/a/report.html` and `/proj/b/report.html`
produce identical screenshot paths in every configuration and
environment, so the later-processed file's images overwrite the
earlier's. -/
theorem C9_stem_collision :
    "/proj/a/report.html" ≠ "/proj/b/report.html" ∧
    basename "/proj/a/report.html" ".html" = "report" ∧
    basename "/proj/b/report.html" ".html" = "report" ∧
    ∀ (cfg : Config) (env : RenderEnv),
      screenshotPaths (convertHtmlToImages cfg env "/proj/a/report.html").1 =
      screenshotPaths (convertHtmlToImages cfg env "/proj/b/report.html").1 := by
  refine ⟨by decide, by decide, by decide, ?_⟩
  intro cfg env
  exact screenshotPaths_basename cfg env _ _ (by decide)

end HtmlToImages
